import Mathlib

/-!
Shallow embedding of the xiaozhi-web-client WebSocket proxy (src/proxy.py):
the outbound audio chunker (class `AudioProcessor`), the WAV container
builder (`create_wav_header` and the in-place header patch), and the two
message pumps (`handle_client_messages`, `handle_server_messages`) of class
`WebSocketProxy`.  Client float32 samples are modelled as rationals, byte
buffers as lists of naturals (each < 256 in practice), and the external
Opus codec as oracles: each inbound compressed frame carries its decode
outcome, and encoding (`pcm_to_opus`) is a function parameter `enc`.
Python's `int.to_bytes(4, 'little')` raises `OverflowError` at `2 ^ 32`,
which the embedding models with an explicit bound check at each call site,
reproducing the source's exception paths.
-/

namespace XiaozhiProxy

/-- One sample of `(chunk * 32767).astype(np.int16)`: multiply by 32767 and
truncate toward zero (the C float-to-integer cast numpy applies to values in
the representable range). -/
def i16 (x : ℚ) : ℤ := if 0 ≤ x then ⌊x * 32767⌋ else ⌈x * 32767⌉

/-- `n.to_bytes(4, 'little')` for `n < 2 ^ 32`. -/
def le32 (n : ℕ) : List ℕ := [n % 256, n / 256 % 256, n / 65536 % 256, n / 16777216 % 256]

/-- `n.to_bytes(2, 'little')` for `n < 2 ^ 16`. -/
def le16 (n : ℕ) : List ℕ := [n % 256, n / 256 % 256]

/-- The 44 bytes assembled by `WebSocketProxy.create_wav_header` (lines
175-198 of src/proxy.py): RIFF/WAVE header for mono 16-bit 16 kHz PCM with
total-size field `total_samples * 2 + 36` and data-size field
`total_samples * 2`. -/
def wavHeaderBytes (total_samples : ℕ) : List ℕ :=
  [0x52, 0x49, 0x46, 0x46] ++ le32 (total_samples * 2 + 36) ++
  [0x57, 0x41, 0x56, 0x45] ++
  [0x66, 0x6d, 0x74, 0x20] ++ le32 16 ++ le16 1 ++ le16 1 ++
  le32 16000 ++ le32 32000 ++ le16 2 ++ le16 16 ++
  [0x64, 0x61, 0x74, 0x61] ++ le32 (total_samples * 2)

/-- `WebSocketProxy.create_wav_header`; `none` models the `OverflowError`
raised by `(total_samples * 2 + 36).to_bytes(4, 'little')` when the value
does not fit 4 bytes (the data-size field then fits a fortiori). -/
def create_wav_header (total_samples : ℕ) : Option (List ℕ) :=
  if total_samples * 2 + 36 < 2 ^ 32 then some (wavHeaderBytes total_samples) else none

/-- Python slice assignment `l[i : i + len(v)] = v` on a bytearray. -/
def setRange (l : List ℕ) (i : ℕ) (v : List ℕ) : List ℕ :=
  l.take i ++ v ++ l.drop (i + v.length)

/-- The header patch performed before every flush (lines 236-239, 252-255
and 290-293 of src/proxy.py): `audio_buffer[4:8] = size_bytes;
audio_buffer[40:44] = data_bytes`. -/
def patchHeader (buf : List ℕ) (total_samples : ℕ) : List ℕ :=
  setRange (setRange buf 4 (le32 (total_samples * 2 + 36))) 40 (le32 (total_samples * 2))

/-- The `while len(self.buffer) >= self.buffer_size` loop of
`AudioProcessor.process_audio` with `buffer_size = 960`: repeatedly split
off the first 960 samples, convert them to int16 PCM, and return the
emitted chunks together with the leftover buffer. -/
def drainChunks (buf : List ℚ) : List (List ℤ) × List ℚ :=
  if _h : 960 ≤ buf.length then
    let r := drainChunks (buf.drop 960)
    (((buf.take 960).map i16) :: r.1, r.2)
  else ([], buf)
termination_by buf.length
decreasing_by simp only [List.length_drop]; omega

/-- `AudioProcessor.process_audio`: append the incoming samples to the
pending buffer, then drain all full 960-sample chunks.  Returns the chunk
list and the new pending buffer. -/
def process_audio (buffer input : List ℚ) : List (List ℤ) × List ℚ :=
  drainChunks (buffer ++ input)

/-- `AudioProcessor.reset_buffer`: the pending buffer becomes empty. -/
def reset_buffer (_buffer : List ℚ) : List ℚ := []

/-- `AudioProcessor.process_remaining`: if samples are pending, convert all
of them (whatever the count) to one int16 PCM chunk and empty the buffer;
otherwise emit nothing. -/
def process_remaining (buffer : List ℚ) : List (List ℤ) × List ℚ :=
  if 0 < buffer.length then ([buffer.map i16], []) else ([], buffer)

/-- The mutable per-proxy state of `WebSocketProxy` (lines 169-173 of
src/proxy.py): `audio_processor.buffer` (the chunker's pending float
samples), `audio_buffer`, `is_first_audio`, `total_samples`, and the
decoder handle, modelled as a generation counter that `opuslib.Decoder(16000, 1)`
recreation increments. -/
structure Session where
  chunker : List ℚ
  audio_buffer : List ℕ
  is_first_audio : Bool
  total_samples : ℕ
  decoder : ℕ

/-- A websocket frame: binary payload or text. -/
inductive Msg where
  | bin (payload : List ℕ)
  | txt (raw : String)

def isBin : Msg → Bool
  | .bin _ => true
  | .txt _ => false

/-- A text frame from the client as seen after `json.loads`:
`malformed` raises `json.JSONDecodeError`; `nonObject` parses to a value
with no `.get` method (list, string, number, bool, null), so
`msg_data.get('type')` raises `AttributeError`, which
`handle_client_messages` does not catch inside the loop; `obj` is a JSON
object whose `type` value is the given string, if any. -/
inductive ClientText where
  | malformed (raw : String)
  | nonObject (raw : String)
  | obj (raw : String) (ty : Option String)

/-- A text frame from the server, analogously; `ty`/`st` are the string
values of `type`/`state` when present. -/
inductive ServerText where
  | malformed (raw : String)
  | nonObject (raw : String)
  | obj (raw : String) (ty st : Option String)

/-- Effect of one client frame on the session: new state, frames sent
upstream, frames sent back to the client, the arguments of every
`pcm_to_opus` encode invocation made, and whether an uncaught exception
ended the handler loop. -/
structure ClientStep where
  session : Session
  toServer : List Msg
  toClient : List Msg
  encoded : List (List ℤ)
  stopped : Bool

/-- Effect of one server frame: new state, frames sent to the client, and
whether an uncaught exception ended the handler loop. -/
structure ServerStep where
  session : Session
  toClient : List Msg
  stopped : Bool

/-- `json.dumps({'type': 'lastData'})`. -/
def lastDataJson : String := "\x7b\"type\": \"lastData\"\x7d"

/-- `for chunk in chunks: opus_data = pcm_to_opus(chunk); if opus_data:
await server_ws.send(opus_data)` — failed encodes are dropped, the rest
forwarded in order. -/
def encodeChunks (enc : List ℤ → Option (List ℕ)) (chunks : List (List ℤ)) : List Msg :=
  chunks.filterMap (fun c => (enc c).map Msg.bin)

/-- Text branch of `WebSocketProxy.handle_client_messages` (lines 311-328
of src/proxy.py). -/
def handleClientText (enc : List ℤ → Option (List ℕ)) (s : Session) (m : ClientText) :
    ClientStep :=
  match m with
  | .malformed raw => ⟨s, [Msg.txt raw], [], [], false⟩
  | .nonObject _ => ⟨s, [], [], [], true⟩
  | .obj raw ty =>
    if ty = some "reset" then
      ⟨{ s with chunker := reset_buffer s.chunker }, [], [], [], false⟩
    else if ty = some "getLastData" then
      let r := process_remaining s.chunker
      ⟨{ s with chunker := r.2 }, encodeChunks enc r.1, [Msg.txt lastDataJson], r.1, false⟩
    else
      ⟨s, [Msg.txt raw], [], [], false⟩

/-- Binary branch of `WebSocketProxy.handle_client_messages` (lines
329-346): empty frames are skipped, otherwise the chunker runs and each
full chunk is encoded and forwarded when encoding succeeds. -/
def handleClientBinary (enc : List ℤ → Option (List ℕ)) (s : Session) (samples : List ℚ) :
    ClientStep :=
  if samples.length = 0 then ⟨s, [], [], [], false⟩
  else
    let r := process_audio s.chunker samples
    ⟨{ s with chunker := r.2 }, encodeChunks enc r.1, [], r.1, false⟩

/-- The state reset performed on a `tts` start/stop boundary (lines
243-246 and 262-265): empty buffer, first-flag set, counter zeroed, and a
fresh `opuslib.Decoder` instance. -/
def boundaryReset (s : Session) : Session :=
  { s with audio_buffer := [], is_first_audio := true, total_samples := 0,
           decoder := s.decoder + 1 }

/-- Text branch of `WebSocketProxy.handle_server_messages` (lines 230-269
of src/proxy.py).  In the flush paths the `to_bytes` overflow guard models
the `OverflowError` escaping the inner `try` (which only catches
`json.JSONDecodeError`) and killing the pump with the state untouched. -/
def handleServerText (s : Session) (m : ServerText) : ServerStep :=
  match m with
  | .malformed raw => ⟨s, [Msg.txt raw], false⟩
  | .nonObject _ => ⟨s, [], true⟩
  | .obj raw ty st =>
    if ty = some "tts" ∧ st = some "start" then
      if 44 < s.audio_buffer.length then
        if s.total_samples * 2 + 36 < 2 ^ 32 then
          ⟨boundaryReset s,
           [Msg.bin (patchHeader s.audio_buffer s.total_samples), Msg.txt raw], false⟩
        else ⟨s, [], true⟩
      else ⟨boundaryReset s, [Msg.txt raw], false⟩
    else if ty = some "tts" ∧ st = some "stop" then
      if 44 < s.audio_buffer.length then
        if s.total_samples * 2 + 36 < 2 ^ 32 then
          ⟨boundaryReset s,
           [Msg.bin (patchHeader s.audio_buffer s.total_samples), Msg.txt raw], false⟩
        else ⟨s, [], true⟩
      else ⟨s, [Msg.txt raw], false⟩
    else ⟨s, [Msg.txt raw], false⟩

/-- Binary branch of `WebSocketProxy.handle_server_messages` (lines
270-303).  `decodeRes` is the outcome of `self.decoder.decode(message, 960)`:
`none` when it raises (frame dropped by the `except` clause), `some pcm`
the decoded PCM bytes otherwise; `if pcm_data:` skips empty results.  All
exceptions in this branch are caught, so the pump never stops here, but a
partially mutated state survives an `OverflowError` (counter already
incremented / buffer already extended). -/
def handleServerBinary (s : Session) (decodeRes : Option (List ℕ)) : ServerStep :=
  match decodeRes with
  | none => ⟨s, [], false⟩
  | some pcm =>
    if pcm.length = 0 then ⟨s, [], false⟩
    else
      let total := s.total_samples + pcm.length / 2
      if s.is_first_audio ∧ ¬ total * 2 + 36 < 2 ^ 32 then
        ⟨{ s with total_samples := total }, [], false⟩
      else
        let buf := s.audio_buffer ++
          (if s.is_first_audio then wavHeaderBytes total else []) ++ pcm
        let first := if s.is_first_audio then false else s.is_first_audio
        if 32044 ≤ buf.length then
          if total * 2 + 36 < 2 ^ 32 then
            ⟨{ s with audio_buffer := [], is_first_audio := true, total_samples := 0 },
             [Msg.bin (patchHeader buf total)], false⟩
          else ⟨{ s with audio_buffer := buf, is_first_audio := first,
                         total_samples := total }, [], false⟩
        else ⟨{ s with audio_buffer := buf, is_first_audio := first,
                       total_samples := total }, [], false⟩

/-- One frame from the server: text (already classified by `json.loads`) or
binary with its decode outcome. -/
inductive SrvMsg where
  | txt (m : ServerText)
  | bin (decodeRes : Option (List ℕ))

def handleServer (s : Session) : SrvMsg → ServerStep
  | .txt m => handleServerText s m
  | .bin r => handleServerBinary s r

/-- The `async for message in server_ws` loop: process frames in arrival
order, stopping (remaining frames unprocessed) when an uncaught exception
ends the loop. -/
def runServer (s : Session) : List SrvMsg → Session × List Msg
  | [] => (s, [])
  | m :: ms =>
    let r := handleServer s m
    if r.stopped then (r.session, r.toClient)
    else
      let rest := runServer r.session ms
      (rest.1, r.toClient ++ rest.2)

/-- The client loop restricted to binary audio frames, returning the final
session and the concatenated encode invocations. -/
def runClientAudio (enc : List ℤ → Option (List ℕ)) (s : Session) :
    List (List ℚ) → Session × List (List ℤ)
  | [] => (s, [])
  | f :: fs =>
    let r := handleClientBinary enc s f
    let rest := runClientAudio enc r.session fs
    (rest.1, r.encoded ++ rest.2)

/-- Specification-side view of the chunker: the consecutive full
960-sample slices of a sample list, in order. -/
def chunks960 (l : List ℚ) : List (List ℚ) :=
  if _h : 960 ≤ l.length then l.take 960 :: chunks960 (l.drop 960) else []
termination_by l.length
decreasing_by simp only [List.length_drop]; omega

/-- Specification-side view of the leftover buffer: what remains after the
full 960-sample slices. -/
def rem960 (l : List ℚ) : List ℚ := l.drop (960 * (chunks960 l).length)

/-- src/proxy.py lines 360-362 and app.py: a single `WebSocketProxy()`
instance is constructed and `websockets.serve(proxy.proxy_handler, ...)`
registers its bound method, so the handler of every accepted connection
closes over the same instance and its session fields; the connection
identity plays no part in selecting the state. -/
def serverClientText (enc : List ℤ → Option (List ℕ)) (shared : Session) (_connId : ℕ)
    (m : ClientText) : ClientStep :=
  handleClientText enc shared m

/-- Binary counterpart of `serverClientText`: every connection's audio is
chunked through the same shared `audio_processor`. -/
def serverClientBinary (enc : List ℤ → Option (List ℕ)) (shared : Session) (_connId : ℕ)
    (samples : List ℚ) : ClientStep :=
  handleClientBinary enc shared samples

/-- An encode oracle that always fails, for concrete evaluations. -/
def encNone : List ℤ → Option (List ℕ) := fun _ => none

/-- The session as `WebSocketProxy.__init__` leaves it: empty buffers,
first-flag set, counter zero, initial decoder generation. -/
def session0 : Session := ⟨[], [], true, 0, 0⟩

/-- A mid-stream inbound state one frame away from the periodic flush:
30124 buffered bytes (header + 15040 samples), first-flag cleared. -/
def sessionC2 : Session := ⟨[], List.replicate 30124 0, false, 15040, 7⟩

/-- One decoded 960-sample PCM frame (1920 bytes). -/
def pcmC2 : List ℕ := List.replicate 1920 0

/-! Unfolding equations and basic facts about the chunker. -/

theorem drainChunks_pos (l : List ℚ) (h : 960 ≤ l.length) :
    drainChunks l = (((l.take 960).map i16) :: (drainChunks (l.drop 960)).1,
      (drainChunks (l.drop 960)).2) := by
  rw [drainChunks, dif_pos h]

theorem drainChunks_neg (l : List ℚ) (h : ¬ 960 ≤ l.length) :
    drainChunks l = ([], l) := by
  rw [drainChunks, dif_neg h]

theorem chunks960_pos (l : List ℚ) (h : 960 ≤ l.length) :
    chunks960 l = l.take 960 :: chunks960 (l.drop 960) := by
  rw [chunks960, dif_pos h]

theorem chunks960_neg (l : List ℚ) (h : ¬ 960 ≤ l.length) : chunks960 l = [] := by
  rw [chunks960, dif_neg h]

theorem rem960_of_lt (l : List ℚ) (h : l.length < 960) : rem960 l = l := by
  rw [rem960, chunks960_neg l (by omega)]
  simp

theorem rem960_pos (l : List ℚ) (h : 960 ≤ l.length) :
    rem960 l = rem960 (l.drop 960) := by
  rw [rem960, rem960, chunks960_pos l h, List.length_cons, List.drop_drop]
  congr 1
  ring

theorem rem960_lt (l : List ℚ) : (rem960 l).length < 960 := by
  induction l using chunks960.induct with
  | case1 l h ih => rw [rem960_pos l h]; exact ih
  | case2 l h => rw [rem960_of_lt l (by omega)]; omega

theorem drainChunks_eq (l : List ℚ) :
    drainChunks l = ((chunks960 l).map (List.map i16), rem960 l) := by
  induction l using chunks960.induct with
  | case1 l h ih =>
    rw [drainChunks_pos l h, ih, chunks960_pos l h, rem960_pos l h]
    simp only [List.map_cons]
  | case2 l h =>
    rw [drainChunks_neg l h, chunks960_neg l h, rem960_of_lt l (by omega)]
    simp

theorem chunks960_length (l : List ℚ) : (chunks960 l).length = l.length / 960 := by
  induction l using chunks960.induct with
  | case1 l h ih =>
    rw [chunks960_pos l h, List.length_cons, ih, List.length_drop,
      Nat.div_eq_sub_div (by norm_num) h]
  | case2 l h =>
    rw [chunks960_neg l h, List.length_nil, Nat.div_eq_of_lt (by omega)]

theorem chunks960_flatten (l : List ℚ) :
    (chunks960 l).flatten = l.take (960 * (chunks960 l).length) := by
  induction l using chunks960.induct with
  | case1 l h ih =>
    rw [chunks960_pos l h, List.flatten_cons, ih, List.length_cons, Nat.mul_succ,
      Nat.add_comm, List.take_add]
  | case2 l h =>
    rw [chunks960_neg l h]
    simp

theorem chunks960_mem_length (l : List ℚ) (c : List ℚ) (hc : c ∈ chunks960 l) :
    c.length = 960 := by
  induction l using chunks960.induct with
  | case1 l h ih =>
    rw [chunks960_pos l h] at hc
    rcases List.mem_cons.mp hc with h1 | h1
    · subst h1
      rw [List.length_take]
      omega
    · exact ih h1
  | case2 l h =>
    rw [chunks960_neg l h] at hc
    cases hc

theorem chunks960_append (x y : List ℚ) :
    chunks960 (x ++ y) = chunks960 x ++ chunks960 (rem960 x ++ y) := by
  induction x using chunks960.induct with
  | case1 x h ih =>
    have hxy : 960 ≤ (x ++ y).length := by
      rw [List.length_append]; omega
    rw [chunks960_pos _ hxy, List.take_append_of_le_length h,
      List.drop_append_of_le_length h, ih, chunks960_pos x h, rem960_pos x h,
      List.cons_append]
  | case2 x h =>
    rw [chunks960_neg x h, rem960_of_lt x (by omega), List.nil_append]

theorem rem960_append (x y : List ℚ) :
    rem960 (x ++ y) = rem960 (rem960 x ++ y) := by
  induction x using chunks960.induct with
  | case1 x h ih =>
    have hxy : 960 ≤ (x ++ y).length := by
      rw [List.length_append]; omega
    rw [rem960_pos _ hxy, List.drop_append_of_le_length h, ih, rem960_pos x h]
  | case2 x h =>
    rw [rem960_of_lt x (by omega)]

/-- One client binary frame, on a buffer respecting the chunker invariant,
drains exactly the full 960-sample slices of buffer-plus-frame and keeps
the leftover pending. -/
theorem handleClientBinary_eq (enc : List ℤ → Option (List ℕ)) (s : Session)
    (samples : List ℚ) (hs : s.chunker.length < 960) :
    handleClientBinary enc s samples =
      ⟨{ s with chunker := rem960 (s.chunker ++ samples) },
        encodeChunks enc ((chunks960 (s.chunker ++ samples)).map (List.map i16)), [],
        (chunks960 (s.chunker ++ samples)).map (List.map i16), false⟩ := by
  by_cases hf : samples.length = 0
  · have hfnil : samples = [] := List.length_eq_zero.mp hf
    subst hfnil
    unfold handleClientBinary
    rw [if_pos (show ([] : List ℚ).length = 0 from rfl), List.append_nil,
      chunks960_neg _ (by omega), rem960_of_lt _ hs]
    simp [encodeChunks]
  · unfold handleClientBinary
    rw [if_neg hf]
    simp only [process_audio, drainChunks_eq]

/-- Running the client binary loop equals chunking the concatenation of all
frames appended to the starting buffer: the emitted encode calls are the
full 960-sample slices (converted sample-wise by `i16`), and the pending
buffer becomes the leftover. -/
theorem runClientAudio_eq (enc : List ℤ → Option (List ℕ)) (fs : List (List ℚ)) :
    ∀ s : Session, s.chunker.length < 960 →
      runClientAudio enc s fs =
        ({ s with chunker := rem960 (s.chunker ++ fs.flatten) },
          (chunks960 (s.chunker ++ fs.flatten)).map (List.map i16)) := by
  induction fs with
  | nil =>
    intro s hs
    have h1 : ¬ 960 ≤ s.chunker.length := by omega
    simp only [runClientAudio, List.flatten_nil, List.append_nil, chunks960_neg _ h1,
      rem960_of_lt _ hs, List.map_nil]
  | cons f fs ih =>
    intro s hs
    rw [runClientAudio, handleClientBinary_eq enc s f hs]
    dsimp only
    rw [ih _ (rem960_lt (s.chunker ++ f))]
    dsimp only
    rw [List.flatten_cons, ← List.append_assoc,
      chunks960_append (s.chunker ++ f) fs.flatten,
      rem960_append (s.chunker ++ f) fs.flatten, List.map_append]

/-- Unfolding of the `getLastData` branch of the client text handler. -/
theorem handleClientText_getLastData (enc : List ℤ → Option (List ℕ)) (s : Session)
    (raw : String) :
    handleClientText enc s (.obj raw (some "getLastData")) =
      ⟨{ s with chunker := (process_remaining s.chunker).2 },
        encodeChunks enc (process_remaining s.chunker).1, [Msg.txt lastDataJson],
        (process_remaining s.chunker).1, false⟩ := by
  simp [handleClientText]

/-- C3: for every sequence of client binary frames whose total sample count
is a multiple of 960, starting from an empty chunker buffer, exactly
total/960 encode invocations occur, each on a 960-sample chunk obtained by
converting consecutive input samples in arrival order via `i16`
(multiplication by 32767 and conversion to 16-bit signed integers); the
concatenation of all emitted chunks' source samples equals the original
input sequence with no drop, duplication, or reordering, and the pending
buffer is empty at the end. -/
theorem c3_chunker_exact_cover (enc : List ℤ → Option (List ℕ)) (fs : List (List ℚ))
    (s : Session) (hs : s.chunker = []) (hmul : (fs.flatten).length % 960 = 0) :
    (runClientAudio enc s fs).2 = (chunks960 fs.flatten).map (List.map i16)
    ∧ (runClientAudio enc s fs).2.length = (fs.flatten).length / 960
    ∧ (∀ c ∈ (runClientAudio enc s fs).2, c.length = 960)
    ∧ (chunks960 fs.flatten).flatten = fs.flatten
    ∧ (runClientAudio enc s fs).1.chunker = [] := by
  have hlt : s.chunker.length < 960 := by rw [hs]; simp
  rw [runClientAudio_eq enc fs s hlt, hs, List.nil_append]
  have hdvd : 960 ∣ fs.flatten.length := Nat.dvd_of_mod_eq_zero hmul
  have hcount : 960 * (chunks960 fs.flatten).length = fs.flatten.length := by
    rw [chunks960_length, Nat.mul_div_cancel' hdvd]
  refine ⟨rfl, ?_, ?_, ?_, ?_⟩
  · rw [List.length_map, chunks960_length]
  · intro c hc
    rcases List.mem_map.mp hc with ⟨d, hd, rfl⟩
    rw [List.length_map, chunks960_mem_length _ d hd]
  · rw [chunks960_flatten, hcount, List.take_length]
  · show rem960 fs.flatten = []
    rw [rem960, hcount, List.drop_length]

/-- Witness for C3 at a concrete three-frame input totalling 1920 samples. -/
theorem c3_chunker_exact_cover_witness :
    (session0.chunker = []
      ∧ (([List.replicate 960 (0 : ℚ), List.replicate 480 0, List.replicate 480 0] :
          List (List ℚ)).flatten.length % 960 = 0))
    ∧ ((runClientAudio encNone session0
          [List.replicate 960 (0 : ℚ), List.replicate 480 0, List.replicate 480 0]).2 =
        (chunks960 ([List.replicate 960 (0 : ℚ), List.replicate 480 0,
          List.replicate 480 0] : List (List ℚ)).flatten).map (List.map i16)
      ∧ (runClientAudio encNone session0
          [List.replicate 960 (0 : ℚ), List.replicate 480 0, List.replicate 480 0]).2.length =
        ([List.replicate 960 (0 : ℚ), List.replicate 480 0, List.replicate 480 0] :
          List (List ℚ)).flatten.length / 960
      ∧ (∀ c ∈ (runClientAudio encNone session0
          [List.replicate 960 (0 : ℚ), List.replicate 480 0, List.replicate 480 0]).2,
          c.length = 960)
      ∧ (chunks960 ([List.replicate 960 (0 : ℚ), List.replicate 480 0,
          List.replicate 480 0] : List (List ℚ)).flatten).flatten =
        ([List.replicate 960 (0 : ℚ), List.replicate 480 0, List.replicate 480 0] :
          List (List ℚ)).flatten
      ∧ (runClientAudio encNone session0
          [List.replicate 960 (0 : ℚ), List.replicate 480 0,
            List.replicate 480 0]).1.chunker = []) :=
  ⟨⟨rfl, by norm_num [List.flatten_cons, List.flatten_nil, List.length_append,
      List.length_replicate]⟩,
    c3_chunker_exact_cover encNone _ session0 rfl
      (by norm_num [List.flatten_cons, List.flatten_nil, List.length_append,
        List.length_replicate])⟩

/-- C10: the chunker's pending buffer holds strictly fewer than 960 samples
after every chunker operation (`process_audio` drains all full chunks,
`reset_buffer` and the `getLastData` drain empty it), so the remainder
handed to the encoder by a `getLastData` drain is always shorter than one
full 960-sample frame. -/
theorem c10_chunker_buffer_invariant (enc : List ℤ → Option (List ℕ)) (s : Session)
    (raw : String) (b input : List ℚ) (hs : s.chunker.length < 960) :
    (process_audio b input).2.length < 960
    ∧ (reset_buffer b).length < 960
    ∧ (process_remaining b).2.length = 0
    ∧ (handleClientText enc s (.obj raw (some "getLastData"))).session.chunker = []
    ∧ ∀ c ∈ (handleClientText enc s (.obj raw (some "getLastData"))).encoded,
        c.length < 960 := by
  refine ⟨?_, by simp [reset_buffer], ?_, ?_, ?_⟩
  · rw [process_audio, drainChunks_eq]
    exact rem960_lt _
  · simp only [process_remaining]
    by_cases hb : 0 < b.length
    · rw [if_pos hb]
      rfl
    · rw [if_neg hb]
      dsimp only
      omega
  · rw [handleClientText_getLastData]
    dsimp only
    simp only [process_remaining]
    by_cases hb : 0 < s.chunker.length
    · rw [if_pos hb]
    · rw [if_neg hb]
      dsimp only
      exact List.length_eq_zero.mp (by omega)
  · intro c hc
    rw [handleClientText_getLastData] at hc
    dsimp only at hc
    simp only [process_remaining] at hc
    by_cases hb : 0 < s.chunker.length
    · rw [if_pos hb] at hc
      simp only [List.mem_singleton] at hc
      subst hc
      rw [List.length_map]
      exact hs
    · rw [if_neg hb] at hc
      simp at hc

/-- Witness for C10 at a 100-sample pending buffer. -/
theorem c10_chunker_buffer_invariant_witness :
    (({ session0 with chunker := List.replicate 100 (1 : ℚ) } : Session).chunker.length < 960)
    ∧ ((process_audio [] []).2.length < 960
      ∧ (reset_buffer []).length < 960
      ∧ (process_remaining []).2.length = 0
      ∧ (handleClientText encNone { session0 with chunker := List.replicate 100 (1 : ℚ) }
          (.obj "x" (some "getLastData"))).session.chunker = []
      ∧ ∀ c ∈ (handleClientText encNone { session0 with chunker := List.replicate 100 (1 : ℚ) }
          (.obj "x" (some "getLastData"))).encoded, c.length < 960) :=
  ⟨by simp, c10_chunker_buffer_invariant encNone _ "x" [] [] (by simp)⟩

/-- C4: a `getLastData` client text frame received while the chunker holds
N pending samples, 0 < N < 960, makes exactly one encode invocation, on
exactly those N samples (not padded to 960), sends the
`{"type": "lastData"}` acknowledgement to the client, and leaves the
chunker's pending buffer empty. -/
theorem c4_getLastData_drain (enc : List ℤ → Option (List ℕ)) (s : Session)
    (raw : String) (h0 : 0 < s.chunker.length) (_h960 : s.chunker.length < 960) :
    (handleClientText enc s (.obj raw (some "getLastData"))).encoded =
      [s.chunker.map i16]
    ∧ (s.chunker.map i16).length = s.chunker.length
    ∧ (handleClientText enc s (.obj raw (some "getLastData"))).toClient =
      [Msg.txt lastDataJson]
    ∧ (handleClientText enc s (.obj raw (some "getLastData"))).session.chunker = []
    ∧ (handleClientText enc s (.obj raw (some "getLastData"))).stopped = false := by
  rw [handleClientText_getLastData]
  simp only [process_remaining]
  rw [if_pos h0]
  simp

/-- Witness for C4 at a single pending sample. -/
theorem c4_getLastData_drain_witness :
    (0 < ({ session0 with chunker := [(1 : ℚ)] } : Session).chunker.length
      ∧ ({ session0 with chunker := [(1 : ℚ)] } : Session).chunker.length < 960)
    ∧ ((handleClientText encNone { session0 with chunker := [(1 : ℚ)] }
          (.obj "x" (some "getLastData"))).encoded =
        [({ session0 with chunker := [(1 : ℚ)] } : Session).chunker.map i16]
      ∧ (({ session0 with chunker := [(1 : ℚ)] } : Session).chunker.map i16).length =
        ({ session0 with chunker := [(1 : ℚ)] } : Session).chunker.length
      ∧ (handleClientText encNone { session0 with chunker := [(1 : ℚ)] }
          (.obj "x" (some "getLastData"))).toClient = [Msg.txt lastDataJson]
      ∧ (handleClientText encNone { session0 with chunker := [(1 : ℚ)] }
          (.obj "x" (some "getLastData"))).session.chunker = []
      ∧ (handleClientText encNone { session0 with chunker := [(1 : ℚ)] }
          (.obj "x" (some "getLastData"))).stopped = false) :=
  ⟨⟨by simp, by simp⟩, c4_getLastData_drain encNone _ "x" (by simp) (by simp)⟩

/-- C6: a `reset` client text frame empties the outbound chunker's pending
buffer and changes nothing else: no frame is emitted in either direction,
no encode call is made, the pump continues, and the inbound container
buffer, sample counter, first-audio flag and decoder handle are all left
unchanged. -/
theorem c6_reset_only_chunker (enc : List ℤ → Option (List ℕ)) (s : Session)
    (raw : String) :
    (handleClientText enc s (.obj raw (some "reset"))).session.chunker = []
    ∧ (handleClientText enc s (.obj raw (some "reset"))).session.audio_buffer =
      s.audio_buffer
    ∧ (handleClientText enc s (.obj raw (some "reset"))).session.total_samples =
      s.total_samples
    ∧ (handleClientText enc s (.obj raw (some "reset"))).session.is_first_audio =
      s.is_first_audio
    ∧ (handleClientText enc s (.obj raw (some "reset"))).session.decoder = s.decoder
    ∧ (handleClientText enc s (.obj raw (some "reset"))).toServer = []
    ∧ (handleClientText enc s (.obj raw (some "reset"))).toClient = []
    ∧ (handleClientText enc s (.obj raw (some "reset"))).encoded = []
    ∧ (handleClientText enc s (.obj raw (some "reset"))).stopped = false := by
  simp [handleClientText, reset_buffer]

/-- C8: a decode failure on an inbound binary frame drops only that frame
(no state change, nothing sent, pump continues); on an outbound client
frame every full chunk gets an encode attempt, the forwarded frames are
exactly the successful encodings in order (so chunks after a failed encode
are still encoded and forwarded), and a codec failure never stops the
pump. -/
theorem c8_codec_failure_isolated (s : Session) (enc : List ℤ → Option (List ℕ))
    (samples : List ℚ) (hne : samples ≠ []) :
    handleServerBinary s none = ⟨s, [], false⟩
    ∧ (handleClientBinary enc s samples).encoded = (process_audio s.chunker samples).1
    ∧ (handleClientBinary enc s samples).toServer =
        ((handleClientBinary enc s samples).encoded).filterMap
          (fun c => (enc c).map Msg.bin)
    ∧ (handleClientBinary enc s samples).stopped = false := by
  have hlen : ¬ samples.length = 0 := fun h => hne (List.length_eq_zero.mp h)
  refine ⟨rfl, ?_, ?_, ?_⟩ <;>
    · unfold handleClientBinary
      rw [if_neg hlen]
      try rfl

/-- Witness for C8 at a one-sample frame with an always-failing encoder. -/
theorem c8_codec_failure_isolated_witness :
    (([(1 : ℚ)] : List ℚ) ≠ [])
    ∧ (handleServerBinary session0 none = ⟨session0, [], false⟩
      ∧ (handleClientBinary encNone session0 [(1 : ℚ)]).encoded =
          (process_audio session0.chunker [(1 : ℚ)]).1
      ∧ (handleClientBinary encNone session0 [(1 : ℚ)]).toServer =
          ((handleClientBinary encNone session0 [(1 : ℚ)]).encoded).filterMap
            (fun c => (encNone c).map Msg.bin)
      ∧ (handleClientBinary encNone session0 [(1 : ℚ)]).stopped = false) :=
  ⟨by simp, c8_codec_failure_isolated session0 encNone [(1 : ℚ)] (by simp)⟩

/-- C5 counterexample: the text frame `42` is valid JSON but not an object,
so `msg_data.get('type')` raises `AttributeError`, which the client pump's
inner `try` (catching only `json.JSONDecodeError`) does not handle: the
frame is NOT forwarded upstream and the pump stops, contradicting the
claim that every non-reset/non-getLastData text frame is forwarded
byte-identical. -/
theorem c5_counterexample_nonobject_json :
    (handleClientText encNone session0 (ClientText.nonObject "42")).toServer = []
    ∧ (handleClientText encNone session0 (ClientText.nonObject "42")).toServer ≠
        [Msg.txt "42"]
    ∧ (handleClientText encNone session0 (ClientText.nonObject "42")).stopped = true := by
  refine ⟨rfl, ?_, rfl⟩
  simp [handleClientText]

/-- C5 (amended): a client text frame that is a JSON *object* without type
`reset`/`getLastData`, or malformed JSON in either direction, is forwarded
byte-identical with zero state change; a valid-JSON non-object client text
frame is not forwarded — it leaves the state unchanged but terminates the
handling pump via the uncaught `AttributeError`. -/
theorem c5_amended_passthrough :
    (∀ (enc : List ℤ → Option (List ℕ)) (s : Session) (raw : String)
        (ty : Option String), ty ≠ some "reset" → ty ≠ some "getLastData" →
          handleClientText enc s (.obj raw ty) = ⟨s, [Msg.txt raw], [], [], false⟩)
    ∧ (∀ (enc : List ℤ → Option (List ℕ)) (s : Session) (raw : String),
        handleClientText enc s (.malformed raw) = ⟨s, [Msg.txt raw], [], [], false⟩)
    ∧ (∀ (s : Session) (raw : String),
        handleServerText s (.malformed raw) = ⟨s, [Msg.txt raw], false⟩)
    ∧ (∀ (enc : List ℤ → Option (List ℕ)) (s : Session) (raw : String),
        (handleClientText enc s (.nonObject raw)).toServer = []
        ∧ (handleClientText enc s (.nonObject raw)).stopped = true
        ∧ (handleClientText enc s (.nonObject raw)).session = s) := by
  refine ⟨?_, fun _ _ _ => rfl, fun _ _ => rfl, fun _ _ _ => ⟨rfl, rfl, rfl⟩⟩
  intro enc s raw ty h1 h2
  simp only [handleClientText]
  rw [if_neg h1, if_neg h2]

/-- Witness for the amended C5 at an unrecognized object type. -/
theorem c5_amended_passthrough_witness :
    ((some "hello" : Option String) ≠ some "reset"
      ∧ (some "hello" : Option String) ≠ some "getLastData")
    ∧ handleClientText encNone session0 (.obj "x" (some "hello")) =
        ⟨session0, [Msg.txt "x"], [], [], false⟩ :=
  ⟨⟨by simp, by simp⟩,
    c5_amended_passthrough.1 encNone session0 "x" (some "hello") (by simp) (by simp)⟩

/-! Facts about the container header and the in-place patch. -/

theorem le32_length (n : ℕ) : (le32 n).length = 4 := rfl

theorem le16_length (n : ℕ) : (le16 n).length = 2 := rfl

theorem wavHeaderBytes_length (n : ℕ) : (wavHeaderBytes n).length = 44 := rfl

set_option maxHeartbeats 1600000 in
/-- Patching a buffer that starts with the 44-byte header rewrites exactly
the two length fields: the result is the header for the new sample count
followed by the untouched payload. -/
theorem patchHeader_header_append (n m : ℕ) (payload : List ℕ) :
    patchHeader (wavHeaderBytes n ++ payload) m = wavHeaderBytes m ++ payload := rfl

set_option maxHeartbeats 800000 in
theorem wavHeader_append_sizeField (t : ℕ) (payload : List ℕ) :
    ((wavHeaderBytes t ++ payload).drop 4).take 4 = le32 (t * 2 + 36) := rfl

set_option maxHeartbeats 800000 in
theorem wavHeader_append_dataField (t : ℕ) (payload : List ℕ) :
    ((wavHeaderBytes t ++ payload).drop 40).take 4 = le32 (t * 2) := rfl

set_option maxHeartbeats 800000 in
theorem wavHeader_append_drop44 (t : ℕ) (payload : List ℕ) :
    (wavHeaderBytes t ++ payload).drop 44 = payload := rfl

/-- Total byte length of the decoded frames when each frame is 1920 bytes. -/
theorem flatten_length_const (l : List (List ℕ)) (h : ∀ p ∈ l, p.length = 1920) :
    l.flatten.length = 1920 * l.length := by
  induction l with
  | nil => simp
  | cons p rest ih =>
    rw [List.flatten_cons, List.length_append, h p (by simp), List.length_cons,
      ih (fun q hq => h q (by simp [hq]))]
    ring

set_option maxHeartbeats 1600000 in
/-- C7: for every representable sample count n the header builder produces
exactly 44 bytes describing mono 16-bit 16 kHz PCM, with bytes [4:8] the
little-endian 32-bit `2*n + 36` and bytes [40:44] the little-endian 32-bit
`2*n`; and patching a buffer that starts with this header overwrites only
those two 4-byte fields — the result is the header for the new count
followed by the unchanged payload, and the header bytes outside the two
fields are identical for any two counts. -/
theorem c7_header_builder_and_patch (n k m : ℕ) (payload : List ℕ)
    (h : n * 2 + 36 < 2 ^ 32) :
    create_wav_header n = some (wavHeaderBytes n)
    ∧ (wavHeaderBytes n).length = 44
    ∧ ((wavHeaderBytes n).drop 4).take 4 = le32 (2 * n + 36)
    ∧ ((wavHeaderBytes n).drop 40).take 4 = le32 (2 * n)
    ∧ ((wavHeaderBytes n).drop 22).take 2 = le16 1
    ∧ ((wavHeaderBytes n).drop 24).take 4 = le32 16000
    ∧ ((wavHeaderBytes n).drop 34).take 2 = le16 16
    ∧ patchHeader (wavHeaderBytes k ++ payload) m = wavHeaderBytes m ++ payload
    ∧ (wavHeaderBytes m).take 4 = (wavHeaderBytes k).take 4
    ∧ ((wavHeaderBytes m).drop 8).take 32 = ((wavHeaderBytes k).drop 8).take 32
    ∧ (wavHeaderBytes m ++ payload).drop 44 = payload := by
  refine ⟨?_, rfl, ?_, ?_, rfl, rfl, rfl, patchHeader_header_append k m payload,
    rfl, rfl, wavHeader_append_drop44 m payload⟩
  · rw [create_wav_header, if_pos h]
  · rw [Nat.mul_comm 2 n]
    rfl
  · rw [Nat.mul_comm 2 n]
    rfl

/-- C7 counterexample: at sample count `2 ^ 31` the size field
`2 * n + 36` no longer fits 4 bytes, so `(…).to_bytes(4, 'little')` raises
`OverflowError` and the builder produces no header at all — the claim's
unrestricted "for every sample count n" fails on the code. -/
theorem c7_counterexample_overflow : create_wav_header (2 ^ 31) = none := by
  rw [create_wav_header, if_neg (by norm_num)]

/-- Witness for C7 at `n = 0`, patching to count 1 over payload `[5]`. -/
theorem c7_header_builder_and_patch_witness :
    (0 * 2 + 36 < 2 ^ 32)
    ∧ (create_wav_header 0 = some (wavHeaderBytes 0)
      ∧ (wavHeaderBytes 0).length = 44
      ∧ ((wavHeaderBytes 0).drop 4).take 4 = le32 (2 * 0 + 36)
      ∧ ((wavHeaderBytes 0).drop 40).take 4 = le32 (2 * 0)
      ∧ ((wavHeaderBytes 0).drop 22).take 2 = le16 1
      ∧ ((wavHeaderBytes 0).drop 24).take 4 = le32 16000
      ∧ ((wavHeaderBytes 0).drop 34).take 2 = le16 16
      ∧ patchHeader (wavHeaderBytes 0 ++ [5]) 1 = wavHeaderBytes 1 ++ [5]
      ∧ (wavHeaderBytes 1).take 4 = (wavHeaderBytes 0).take 4
      ∧ ((wavHeaderBytes 1).drop 8).take 32 = ((wavHeaderBytes 0).drop 8).take 32
      ∧ (wavHeaderBytes 1 ++ [5]).drop 44 = [5]) :=
  ⟨by norm_num, c7_header_builder_and_patch 0 0 1 [5] (by norm_num)⟩

/-! Step lemmas for the inbound (server-to-client) pump. -/

theorem handleServer_txt (s : Session) (m : ServerText) :
    handleServer s (SrvMsg.txt m) = handleServerText s m := rfl

theorem handleServer_bin (s : Session) (r : Option (List ℕ)) :
    handleServer s (SrvMsg.bin r) = handleServerBinary s r := rfl

theorem runServer_nil (s : Session) : runServer s [] = (s, []) := rfl

/-- When a step does not kill the pump, the loop continues on the tail. -/
theorem runServer_cons_continue (s : Session) (m : SrvMsg) (ms : List SrvMsg)
    (h : (handleServer s m).stopped = false) :
    runServer s (m :: ms) =
      ((runServer (handleServer s m).session ms).1,
        (handleServer s m).toClient ++ (runServer (handleServer s m).session ms).2) := by
  simp only [runServer, h, Bool.false_eq_true, if_false]

/-- A decoded frame on a non-first buffer below the flush threshold just
extends the buffer and the counter. -/
theorem handleServerBinary_noflush (s : Session) (pcm : List ℕ)
    (hne : ¬ pcm.length = 0) (hfirst : s.is_first_audio = false)
    (hsmall : s.audio_buffer.length + pcm.length < 32044) :
    handleServerBinary s (some pcm) =
      ⟨{ s with
          audio_buffer := s.audio_buffer ++ pcm,
          is_first_audio := false,
          total_samples := s.total_samples + pcm.length / 2 }, [], false⟩ := by
  simp only [handleServerBinary]
  rw [if_neg hne, hfirst]
  simp only [Bool.false_eq_true, false_and, if_false, List.append_nil]
  rw [if_neg (show ¬ 32044 ≤ (s.audio_buffer ++ pcm).length by
    rw [List.length_append]; omega)]

/-- A decoded frame on a first-flag buffer below the flush threshold
prepends the header (built from the already-incremented counter), then
appends the PCM bytes. -/
theorem handleServerBinary_first (s : Session) (pcm : List ℕ)
    (hne : ¬ pcm.length = 0) (hfirst : s.is_first_audio = true)
    (hok : (s.total_samples + pcm.length / 2) * 2 + 36 < 2 ^ 32)
    (hsmall : s.audio_buffer.length + 44 + pcm.length < 32044) :
    handleServerBinary s (some pcm) =
      ⟨{ s with
          audio_buffer :=
            s.audio_buffer ++ wavHeaderBytes (s.total_samples + pcm.length / 2) ++ pcm,
          is_first_audio := false,
          total_samples := s.total_samples + pcm.length / 2 }, [], false⟩ := by
  simp only [handleServerBinary]
  rw [if_neg hne,
    if_neg (show ¬ (s.is_first_audio = true
      ∧ ¬ (s.total_samples + pcm.length / 2) * 2 + 36 < 2 ^ 32) from fun h => h.2 hok),
    hfirst]
  simp only [if_true]
  rw [if_neg (show ¬ 32044 ≤
      (s.audio_buffer ++ wavHeaderBytes (s.total_samples + pcm.length / 2) ++ pcm).length by
    simp only [List.length_append, wavHeaderBytes_length]
    omega)]

/-- A decoded frame that brings the buffer to the flush threshold patches
the header from the running counter, sends the whole buffer, and resets
buffer, counter and flag — but not the decoder. -/
theorem handleServerBinary_flush (s : Session) (pcm : List ℕ)
    (hne : ¬ pcm.length = 0)
    (hok : (s.total_samples + pcm.length / 2) * 2 + 36 < 2 ^ 32)
    (hbig : 32044 ≤ (s.audio_buffer ++
      (if s.is_first_audio then wavHeaderBytes (s.total_samples + pcm.length / 2) else []) ++
      pcm).length) :
    handleServerBinary s (some pcm) =
      ⟨{ s with audio_buffer := [], is_first_audio := true, total_samples := 0 },
        [Msg.bin (patchHeader
          (s.audio_buffer ++
            (if s.is_first_audio then wavHeaderBytes (s.total_samples + pcm.length / 2) else []) ++
            pcm)
          (s.total_samples + pcm.length / 2))], false⟩ := by
  simp only [handleServerBinary]
  rw [if_neg hne,
    if_neg (show ¬ (s.is_first_audio = true
      ∧ ¬ (s.total_samples + pcm.length / 2) * 2 + 36 < 2 ^ 32) from fun h => h.2 hok),
    if_pos hbig, if_pos hok]

/-- A `{tts,start}` on a buffer holding no audio beyond the header resets
the stream state (fresh decoder) and forwards the text. -/
theorem handleServerText_start_empty (s : Session) (raw : String)
    (hlen : ¬ 44 < s.audio_buffer.length) :
    handleServerText s (.obj raw (some "tts") (some "start")) =
      ⟨boundaryReset s, [Msg.txt raw], false⟩ := by
  simp [handleServerText, hlen]

/-- A `{tts,stop}` on a buffer holding audio beyond the header patches and
flushes the container, resets the stream state, and forwards the text. -/
theorem handleServerText_stop_flush (s : Session) (raw : String)
    (hlen : 44 < s.audio_buffer.length) (hok : s.total_samples * 2 + 36 < 2 ^ 32) :
    handleServerText s (.obj raw (some "tts") (some "stop")) =
      ⟨boundaryReset s,
        [Msg.bin (patchHeader s.audio_buffer s.total_samples), Msg.txt raw], false⟩ := by
  rw [show (2 : ℕ) ^ 32 = 4294967296 by norm_num] at hok
  simp [handleServerText, hlen]
  omega

/-- Running a segment of decoded frames that stays below the flush
threshold only accumulates PCM bytes and samples, sending nothing. -/
theorem runServer_decoded_segment (pcms : List (List ℕ)) :
    ∀ (s : Session) (hdr acc : List ℕ) (ms : List SrvMsg),
      hdr.length = 44 → s.audio_buffer = hdr ++ acc → s.is_first_audio = false →
      44 + acc.length + 1920 * pcms.length < 32044 →
      (∀ p ∈ pcms, p.length = 1920) →
      runServer s (pcms.map (fun p => SrvMsg.bin (some p)) ++ ms) =
        runServer { s with
          audio_buffer := hdr ++ (acc ++ pcms.flatten),
          is_first_audio := false,
          total_samples := s.total_samples + 960 * pcms.length } ms := by
  induction pcms with
  | nil =>
    intro s hdr acc ms hh hbuf hfirst hbound hlen
    have hs : ({ s with
        audio_buffer := hdr ++ (acc ++ ([] : List (List ℕ)).flatten),
        is_first_audio := false,
        total_samples := s.total_samples + 960 * ([] : List (List ℕ)).length } : Session)
        = s := by
      obtain ⟨c0, b0, f0, t0, d0⟩ := s
      simp only at hbuf hfirst
      simp [hbuf, hfirst]
    rw [List.map_nil, List.nil_append, hs]
  | cons p rest ih =>
    intro s hdr acc ms hh hbuf hfirst hbound hlen
    have hp : p.length = 1920 := hlen p (by simp)
    have hstep : handleServer s (SrvMsg.bin (some p)) =
        ⟨{ s with
            audio_buffer := s.audio_buffer ++ p,
            is_first_audio := false,
            total_samples := s.total_samples + p.length / 2 }, [], false⟩ := by
      show handleServerBinary s (some p) = _
      exact handleServerBinary_noflush s p (by omega) hfirst
        (by rw [hbuf, List.length_append, hh, hp]
            simp only [List.length_cons] at hbound
            omega)
    rw [List.map_cons, List.cons_append,
      runServer_cons_continue _ _ _ (by rw [hstep]), hstep]
    dsimp only
    rw [ih _ hdr (acc ++ p) ms hh
      (by rw [hbuf, List.append_assoc])
      rfl
      (by rw [List.length_append, hp]
          simp only [List.length_cons] at hbound
          omega)
      (fun q hq => hlen q (by simp [hq]))]
    dsimp only
    rw [hp]
    norm_num
    rw [show s.total_samples + 960 + 960 * rest.length
        = s.total_samples + 960 * (rest.length + 1) by ring]

/-- C2: whenever, after appending a decoded PCM frame (header included when
the first-flag was set), the container buffer reaches `44 + 32000` bytes,
the inbound pump patches the two header length fields from the running
sample counter, sends the whole buffer to the client as one binary frame,
and resets the buffer to empty, the counter to 0 and the first-flag to
true, while the decoder handle (and the outbound chunker) are left
unchanged by this periodic flush and the pump continues. -/
theorem c2_periodic_flush (s : Session) (pcm : List ℕ) (hne : pcm ≠ [])
    (hok : (s.total_samples + pcm.length / 2) * 2 + 36 < 2 ^ 32)
    (hbuf : 44 + 32000 ≤ (s.audio_buffer ++
      (if s.is_first_audio then wavHeaderBytes (s.total_samples + pcm.length / 2) else []) ++
      pcm).length) :
    (handleServerBinary s (some pcm)).session.audio_buffer = []
    ∧ (handleServerBinary s (some pcm)).session.total_samples = 0
    ∧ (handleServerBinary s (some pcm)).session.is_first_audio = true
    ∧ (handleServerBinary s (some pcm)).session.decoder = s.decoder
    ∧ (handleServerBinary s (some pcm)).session.chunker = s.chunker
    ∧ (handleServerBinary s (some pcm)).toClient =
        [Msg.bin (patchHeader
          (s.audio_buffer ++
            (if s.is_first_audio then
              wavHeaderBytes (s.total_samples + pcm.length / 2) else []) ++
            pcm)
          (s.total_samples + pcm.length / 2))]
    ∧ (handleServerBinary s (some pcm)).stopped = false := by
  rw [handleServerBinary_flush s pcm (fun h => hne (List.length_eq_zero.mp h)) hok
    (by omega)]
  exact ⟨rfl, rfl, rfl, rfl, rfl, rfl, rfl⟩

/-- Witness for C2 at a buffer of 30124 bytes receiving 1920 more. -/
theorem c2_periodic_flush_witness :
    (pcmC2 ≠ []
      ∧ (sessionC2.total_samples + pcmC2.length / 2) * 2 + 36 < 2 ^ 32
      ∧ 44 + 32000 ≤ (sessionC2.audio_buffer ++
          (if sessionC2.is_first_audio then
            wavHeaderBytes (sessionC2.total_samples + pcmC2.length / 2) else []) ++
          pcmC2).length)
    ∧ ((handleServerBinary sessionC2 (some pcmC2)).session.audio_buffer = []
      ∧ (handleServerBinary sessionC2 (some pcmC2)).session.total_samples = 0
      ∧ (handleServerBinary sessionC2 (some pcmC2)).session.is_first_audio = true
      ∧ (handleServerBinary sessionC2 (some pcmC2)).session.decoder = sessionC2.decoder
      ∧ (handleServerBinary sessionC2 (some pcmC2)).session.chunker = sessionC2.chunker
      ∧ (handleServerBinary sessionC2 (some pcmC2)).toClient =
          [Msg.bin (patchHeader
            (sessionC2.audio_buffer ++
              (if sessionC2.is_first_audio then
                wavHeaderBytes (sessionC2.total_samples + pcmC2.length / 2) else []) ++
              pcmC2)
            (sessionC2.total_samples + pcmC2.length / 2))]
      ∧ (handleServerBinary sessionC2 (some pcmC2)).stopped = false) :=
  have hplen : pcmC2.length = 1920 := by rw [pcmC2, List.length_replicate]
  have h1 : pcmC2 ≠ [] := by
    intro h
    rw [h] at hplen
    simp at hplen
  have h2 : (sessionC2.total_samples + pcmC2.length / 2) * 2 + 36 < 2 ^ 32 := by
    rw [show sessionC2.total_samples = 15040 from rfl, hplen]
    norm_num
  have h3 : 44 + 32000 ≤ (sessionC2.audio_buffer ++
      (if sessionC2.is_first_audio then
        wavHeaderBytes (sessionC2.total_samples + pcmC2.length / 2) else []) ++
      pcmC2).length := by
    rw [List.length_append, List.length_append,
      show sessionC2.audio_buffer = List.replicate 30124 0 from rfl,
      List.length_replicate, hplen,
      show sessionC2.is_first_audio = false from rfl]
    norm_num
  ⟨⟨h1, h2, h3⟩, c2_periodic_flush sessionC2 pcmC2 h1 h2 h3⟩

/-- C1: starting from a freshly reset inbound state, a `{tts,start}` text
frame, then K (1 ≤ K, K*1920 < 32000) successfully decoded 960-sample
frames, then a `{tts,stop}` text frame, send exactly one binary container
frame to the client: its size is `44 + 2*K*960` bytes, bytes [4:8] are
little-endian `2*K*960 + 36`, bytes [40:44] are little-endian `2*K*960`,
and its payload is the concatenation of the K decoded PCM frames in
arrival order. -/
theorem c1_single_container_per_stream (pcms : List (List ℕ)) (c : List ℚ) (d : ℕ)
    (startRaw stopRaw : String) (hne : pcms ≠ [])
    (hlen : ∀ p ∈ pcms, p.length = 1920) (hK : 1920 * pcms.length < 32000) :
    ∃ B : List ℕ,
      ((runServer (⟨c, [], true, 0, d⟩ : Session)
          (SrvMsg.txt (.obj startRaw (some "tts") (some "start")) ::
            (pcms.map (fun p => SrvMsg.bin (some p)) ++
              [SrvMsg.txt (.obj stopRaw (some "tts") (some "stop"))])))).2.filter isBin
        = [Msg.bin B]
      ∧ B.length = 44 + 2 * (pcms.length * 960)
      ∧ (B.drop 4).take 4 = le32 (2 * (pcms.length * 960) + 36)
      ∧ (B.drop 40).take 4 = le32 (2 * (pcms.length * 960))
      ∧ B.drop 44 = pcms.flatten := by
  obtain ⟨p, rest, rfl⟩ := List.exists_cons_of_ne_nil hne
  have hp : p.length = 1920 := hlen p (by simp)
  have hlenr : ∀ q ∈ rest, q.length = 1920 := fun q hq => hlen q (by simp [hq])
  rw [List.length_cons] at hK
  have h1 : handleServer (⟨c, [], true, 0, d⟩ : Session)
      (SrvMsg.txt (.obj startRaw (some "tts") (some "start"))) =
      ⟨⟨c, [], true, 0, d + 1⟩, [Msg.txt startRaw], false⟩ := by
    rw [handleServer_txt, handleServerText_start_empty _ _ (by simp)]
    rfl
  have hs1 : (handleServer (⟨c, [], true, 0, d⟩ : Session)
      (SrvMsg.txt (.obj startRaw (some "tts") (some "start")))).stopped = false := by
    rw [h1]
  rw [runServer_cons_continue _ _ _ hs1, h1]
  dsimp only
  have h2 : handleServer (⟨c, [], true, 0, d + 1⟩ : Session) (SrvMsg.bin (some p)) =
      ⟨⟨c, wavHeaderBytes 960 ++ p, false, 960, d + 1⟩, [], false⟩ := by
    rw [handleServer_bin, handleServerBinary_first _ _ (by simp [hp]) rfl
      (by norm_num [hp]) (by norm_num [hp])]
    rw [hp]
    norm_num
  have hs2 : (handleServer (⟨c, [], true, 0, d + 1⟩ : Session)
      (SrvMsg.bin (some p))).stopped = false := by
    rw [h2]
  rw [List.map_cons]
  rw [List.cons_append (SrvMsg.bin (some p))]
  rw [runServer_cons_continue _ _ _ hs2, h2]
  dsimp only
  rw [runServer_decoded_segment rest ⟨c, wavHeaderBytes 960 ++ p, false, 960, d + 1⟩
    (wavHeaderBytes 960) p [SrvMsg.txt (.obj stopRaw (some "tts") (some "stop"))]
    (wavHeaderBytes_length 960) rfl rfl
    (by rw [hp]; omega) hlenr]
  have h4 : handleServer (⟨c, wavHeaderBytes 960 ++ (p ++ rest.flatten), false,
      960 + 960 * rest.length, d + 1⟩ : Session)
      (SrvMsg.txt (.obj stopRaw (some "tts") (some "stop"))) =
      ⟨⟨c, [], true, 0, d + 2⟩,
        [Msg.bin (patchHeader (wavHeaderBytes 960 ++ (p ++ rest.flatten))
          (960 + 960 * rest.length)), Msg.txt stopRaw], false⟩ := by
    rw [handleServer_txt, handleServerText_stop_flush _ _
      (by show 44 < (wavHeaderBytes 960 ++ (p ++ rest.flatten)).length
          simp only [List.length_append, wavHeaderBytes_length, hp]
          omega)
      (by show (960 + 960 * rest.length) * 2 + 36 < 2 ^ 32
          rw [show (2 : ℕ) ^ 32 = 4294967296 by norm_num]
          omega)]
    rfl
  have hs4 : (handleServer (⟨c, wavHeaderBytes 960 ++ (p ++ rest.flatten), false,
      960 + 960 * rest.length, d + 1⟩ : Session)
      (SrvMsg.txt (.obj stopRaw (some "tts") (some "stop")))).stopped = false := by
    rw [h4]
  rw [runServer_cons_continue _ _ _ hs4, h4, runServer_nil]
  dsimp only
  refine ⟨patchHeader (wavHeaderBytes 960 ++ (p ++ rest.flatten))
    (960 + 960 * rest.length), ?_, ?_, ?_, ?_, ?_⟩
  · simp [isBin]
  · rw [patchHeader_header_append, List.length_append, wavHeaderBytes_length,
      List.length_append, hp, flatten_length_const rest hlenr, List.length_cons]
    ring
  · rw [patchHeader_header_append, wavHeader_append_sizeField, List.length_cons]
    congr 1
    ring
  · rw [patchHeader_header_append, wavHeader_append_dataField, List.length_cons]
    congr 1
    ring
  · rw [patchHeader_header_append, wavHeader_append_drop44, List.flatten_cons]

/-- Witness for C1 at K = 1 with a single all-zero decoded frame. -/
theorem c1_single_container_per_stream_witness :
    (([List.replicate 1920 0] : List (List ℕ)) ≠ []
      ∧ (∀ p ∈ ([List.replicate 1920 0] : List (List ℕ)), p.length = 1920)
      ∧ 1920 * ([List.replicate 1920 0] : List (List ℕ)).length < 32000)
    ∧ ∃ B : List ℕ,
      ((runServer (⟨[], [], true, 0, 0⟩ : Session)
          (SrvMsg.txt (.obj "s" (some "tts") (some "start")) ::
            (([List.replicate 1920 0] : List (List ℕ)).map
              (fun p => SrvMsg.bin (some p)) ++
              [SrvMsg.txt (.obj "t" (some "tts") (some "stop"))])))).2.filter isBin
        = [Msg.bin B]
      ∧ B.length = 44 + 2 * (([List.replicate 1920 0] : List (List ℕ)).length * 960)
      ∧ (B.drop 4).take 4 =
          le32 (2 * (([List.replicate 1920 0] : List (List ℕ)).length * 960) + 36)
      ∧ (B.drop 40).take 4 =
          le32 (2 * (([List.replicate 1920 0] : List (List ℕ)).length * 960))
      ∧ B.drop 44 = ([List.replicate 1920 0] : List (List ℕ)).flatten :=
  have h1 : ([List.replicate 1920 0] : List (List ℕ)) ≠ [] := List.cons_ne_nil _ _
  have h2 : ∀ p ∈ ([List.replicate 1920 0] : List (List ℕ)), p.length = 1920 := by
    intro p hp
    rw [List.mem_singleton] at hp
    rw [hp, List.length_replicate]
  have h3 : 1920 * ([List.replicate 1920 0] : List (List ℕ)).length < 32000 := by
    rw [List.length_singleton]
    norm_num
  ⟨⟨h1, h2, h3⟩, c1_single_container_per_stream [List.replicate 1920 0] [] 0 "s" "t" h1 h2 h3⟩

/-- C9 (code bug evaluation): the program constructs one `WebSocketProxy`
and serves its bound `proxy_handler`, so the handlers of two distinct
connections read and write the same session: 100 samples buffered by
connection 1's audio are wiped by a `reset` arriving on connection 0. -/
theorem c9_sessions_shared_across_connections :
    ((serverClientBinary encNone session0 1
        (List.replicate 100 (1 : ℚ))).session.chunker.length = 100)
    ∧ ((serverClientText encNone
        (serverClientBinary encNone session0 1 (List.replicate 100 (1 : ℚ))).session 0
        (ClientText.obj "r" (some "reset"))).session.chunker.length = 0) := by
  have h1 : serverClientBinary encNone session0 1 (List.replicate 100 (1 : ℚ)) =
      ⟨{ session0 with chunker := List.replicate 100 (1 : ℚ) }, [], [], [], false⟩ := by
    show handleClientBinary _ _ _ = _
    unfold handleClientBinary process_audio
    rw [if_neg (show ¬ (List.replicate 100 (1 : ℚ)).length = 0 by simp)]
    rw [show session0.chunker ++ List.replicate 100 (1 : ℚ)
        = List.replicate 100 (1 : ℚ) from List.nil_append _]
    rw [drainChunks_neg _ (by simp)]
    rfl
  constructor
  · rw [h1]
    simp
  · rw [h1]
    show (handleClientText _ _ _).session.chunker.length = 0
    simp [handleClientText, reset_buffer]

end XiaozhiProxy
